import Mathlib

/-!
# Pixel Agents — verification of the transcript-tailing / parsing core

Shallow embedding of the agent lifecycle & transcript-status engine of the
`pixel-agents` repository:

* `splitNL`, `readNewLinesTail`, `runTail` — the byte-offset incremental
  tailer (`readNewLines` in `website/server/src/fileWatcher.ts` and
  `src/fileWatcher.ts`; both variants have identical offset/split logic).
* transcript parser (`transcriptParser.ts`): `processTranscriptLine`,
  `processCodexTranscriptLine`, `processProgressRecord`,
  `formatToolStatus`, `formatCodexToolStatus`.
* project scan / reassign / resync (`fileWatcher.ts`):
  `scanForNewJsonlFiles`, `reassignAgentToFile`, `resyncAgent`.
* orchestrator round-robin prompt routing (`server/index.ts`,
  `PixelAgentsViewProvider.ts`).

Machine integers do not matter here (all counters are small non-negative
byte counts), so file offsets and sizes are `Nat`. File contents are
`List Char` (one JS UTF-16 unit ≈ one `Char` for the ASCII data involved).
JSON records are an explicit `Json` inductive; `JSON.parse` of a raw line
is modelled as an `Option Json` input (`none` = parse failure, matching the
`try { JSON.parse(line) } catch { /* ignore */ }` wrapper in the source).
-/

namespace PixelAgents

/-! ## Line splitting (the tailer's `text.split('\n')` + `pop()`) -/

/-- Split a character stream at `'\n'`: first component is the list of
complete (newline-terminated) lines in order, second component is the
trailing fragment after the last newline.  This is exactly
`text.split('\n')` followed by `pop()` in `readNewLines`: the popped last
segment is the new `lineBuffer`, the remaining segments are the complete
lines. -/
def consHead (c : Char) : List (List Char) × List Char → List (List Char) × List Char
  | ([], r) => ([], c :: r)
  | (l :: ls, r) => ((c :: l) :: ls, r)

def splitNL : List Char → List (List Char) × List Char
  | [] => ([], [])
  | c :: cs =>
    if c = '\n' then ([] :: (splitNL cs).1, (splitNL cs).2)
    else consHead c (splitNL cs)

/-- A line is blank when JS `line.trim()` is falsy, i.e. every character is
whitespace (this includes the empty line). -/
def isBlankLine (l : List Char) : Bool := l.all Char.isWhitespace

/-! ## The incremental tailer (`readNewLines`, offset/buffer part)

`TailState` is the projection of the agent record to the two fields the
tailer mutates: `fileOffset` (bytes already consumed) and `lineBuffer`
(carried-over trailing fragment). -/

structure TailState where
  fileOffset : Nat
  lineBuffer : List Char

/-- The read routine of `readNewLines` (fileWatcher.ts): stat the file; if
`size <= fileOffset` do nothing; otherwise read exactly the new byte range,
prepend the carried `lineBuffer`, split on newline, keep the last fragment
as the new buffer and deliver every non-blank complete line to the Parser
(`if (!line.trim()) continue;` skips blank lines).  The second component is
the ordered list of lines handed to `processTranscriptLine`. -/
def readNewLinesTail (file : List Char) (s : TailState) : TailState × List (List Char) :=
  if file.length ≤ s.fileOffset then (s, [])
  else
    let p := splitNL (s.lineBuffer ++ file.drop s.fileOffset)
    (⟨file.length, p.2⟩, p.1.filter (fun l => !(isBlankLine l)))

/-- One externally visible step against a tailed file: either the provider
appends bytes to the transcript, or one of the two read triggers (the
`fs.watch` notification handler or the polling-interval handler) invokes
`readNewLines`.  Both handlers call the very same routine, so a trace of
`read` events covers every interleaving of poll and notify firings. -/
inductive TailEvent
  | append (bytes : List Char)
  | read

/-- Whole-system tailing state: current file content, the agent's tail
state, and the concatenated log of all lines delivered to the Parser so
far. -/
structure TailSys where
  file : List Char
  st : TailState
  delivered : List (List Char)

def tailStep (sys : TailSys) : TailEvent → TailSys
  | .append bs => { sys with file := sys.file ++ bs }
  | .read =>
    let r := readNewLinesTail sys.file sys.st
    { sys with st := r.1, delivered := sys.delivered ++ r.2 }

/-- Run a trace of appends and read-trigger firings from an empty file and
a fresh agent (`fileOffset = 0`, empty `lineBuffer`). -/
def runTail (tr : List TailEvent) : TailSys :=
  tr.foldl tailStep ⟨[], ⟨0, []⟩, []⟩

/-! ### Tailer lemmas -/

theorem consHead_mk_nil (c : Char) (r : List Char) :
    consHead c ([], r) = ([], c :: r) := rfl

theorem consHead_mk_cons (c : Char) (l : List Char) (ls : List (List Char)) (r : List Char) :
    consHead c (l :: ls, r) = ((c :: l) :: ls, r) := rfl

theorem splitNL_append (a b : List Char) :
    splitNL (a ++ b) =
      ((splitNL a).1 ++ (splitNL ((splitNL a).2 ++ b)).1,
        (splitNL ((splitNL a).2 ++ b)).2) := by
  induction a with
  | nil => simp [splitNL]
  | cons c cs ih =>
    rcases hA : splitNL cs with ⟨A1, A2⟩
    rw [hA] at ih
    by_cases hc : c = '\n'
    · subst hc
      simp only [List.cons_append, splitNL, if_pos rfl, hA, ih]
      simp [ih]
    · simp only [List.cons_append, splitNL, if_neg hc, hA, ih]
      cases A1 with
      | nil =>
        rcases hQ : splitNL (A2 ++ b) with ⟨Q1, Q2⟩
        simp only [consHead_mk_nil, List.nil_append]
        cases Q1 with
        | nil => simp [splitNL, if_neg hc, ih, hQ, consHead]
        | cons q qs => simp [splitNL, if_neg hc, ih, hQ, consHead]
      | cons l ls => simp [consHead_mk_cons, ih, consHead, List.cons_append]

/-- The tailing invariant: the consumed prefix of the file, split at
newlines, accounts exactly for the delivered lines (after the blank-line
filter) and for the carried `lineBuffer`. -/
def TailInv (sys : TailSys) : Prop :=
  sys.st.fileOffset ≤ sys.file.length ∧
  (splitNL (sys.file.take sys.st.fileOffset)).2 = sys.st.lineBuffer ∧
  sys.delivered =
    ((splitNL (sys.file.take sys.st.fileOffset)).1).filter (fun l => !(isBlankLine l))

theorem tailInv_init : TailInv ⟨[], ⟨0, []⟩, []⟩ := by
  refine ⟨Nat.le_refl 0, ?_, ?_⟩ <;> simp [splitNL]

theorem tailInv_step (sys : TailSys) (e : TailEvent) (h : TailInv sys) :
    TailInv (tailStep sys e) := by
  obtain ⟨hle, hbuf, hdel⟩ := h
  cases e with
  | append bs =>
    refine ⟨?_, ?_, ?_⟩
    · simp only [tailStep, List.length_append]
      exact le_trans hle (Nat.le_add_right _ _)
    · simp only [tailStep]
      rw [List.take_append_of_le_length hle]
      exact hbuf
    · simp only [tailStep]
      rw [List.take_append_of_le_length hle]
      exact hdel
  | read =>
    by_cases hr : sys.file.length ≤ sys.st.fileOffset
    · simpa [tailStep, readNewLinesTail, hr] using ⟨hle, hbuf, hdel⟩
    · have hsplit := splitNL_append (sys.file.take sys.st.fileOffset)
        (sys.file.drop sys.st.fileOffset)
      rw [List.take_append_drop, hbuf] at hsplit
      refine ⟨?_, ?_, ?_⟩
      · simp only [tailStep, readNewLinesTail]
        rw [if_neg hr]
      · simp only [tailStep, readNewLinesTail]
        rw [if_neg hr]
        simp only [List.take_length, hsplit]
      · simp only [tailStep, readNewLinesTail]
        rw [if_neg hr]
        simp only [List.take_length, hsplit, List.filter_append, hdel]

theorem tailInv_run (tr : List TailEvent) (sys : TailSys) (h : TailInv sys) :
    TailInv (tr.foldl tailStep sys) := by
  induction tr generalizing sys with
  | nil => exact h
  | cons e tr ih => exact ih _ (tailInv_step sys e h)

theorem tailInv_runTail (tr : List TailEvent) : TailInv (runTail tr) :=
  tailInv_run tr _ tailInv_init

/-- After a read step the offset equals the file length. -/
theorem offset_eq_length_after_read (sys : TailSys) (h : TailInv sys) :
    (tailStep sys .read).st.fileOffset = (tailStep sys .read).file.length := by
  by_cases hr : sys.file.length ≤ sys.st.fileOffset
  · have := le_antisymm hr h.1
    simp [tailStep, readNewLinesTail, hr, this]
  · simp [tailStep, readNewLinesTail, hr]

theorem runTail_append_read (tr : List TailEvent) :
    runTail (tr ++ [TailEvent.read]) = tailStep (runTail tr) .read := by
  simp [runTail, List.foldl_append]

/-- **C1** (amended).  For every sequence of byte appends and every
interleaving of poll-handler and notification-handler firings of
`readNewLines`, after a final read the Parser has received exactly the
non-blank newline-terminated complete lines of the file, each exactly once
and in file order, and `lineBuffer` holds the trailing unterminated
fragment.  (Blank — empty or whitespace-only — complete lines are skipped
by `if (!line.trim()) continue;`, which is the one correction to the claim;
see the counterexample.) -/
theorem c1_tailer_delivery (tr : List TailEvent) :
    (runTail (tr ++ [TailEvent.read])).delivered =
      ((splitNL (runTail (tr ++ [TailEvent.read])).file).1).filter
        (fun l => !(isBlankLine l)) ∧
    (runTail (tr ++ [TailEvent.read])).st.lineBuffer =
      (splitNL (runTail (tr ++ [TailEvent.read])).file).2 := by
  have hoff : (runTail (tr ++ [TailEvent.read])).st.fileOffset
      = (runTail (tr ++ [TailEvent.read])).file.length := by
    rw [runTail_append_read]
    exact offset_eq_length_after_read _ (tailInv_runTail tr)
  obtain ⟨-, hbuf, hdel⟩ := tailInv_runTail (tr ++ [TailEvent.read])
  rw [hoff, List.take_length] at hbuf hdel
  exact ⟨hdel, hbuf.symm⟩

/-- **C1** counterexample to the claim as stated: append the single byte
`"\n"` and fire a read.  The file then has exactly one newline-terminated
complete line (the empty line), but `readNewLines` delivers it to the
Parser zero times, not exactly once (`if (!line.trim()) continue;`). -/
theorem c1_blank_line_counterexample :
    (splitNL (runTail [TailEvent.append ['\n'], TailEvent.read]).file).1.count
        ([] : List Char) = 1 ∧
    (runTail [TailEvent.append ['\n'], TailEvent.read]).delivered.count
        ([] : List Char) = 0 := by
  decide

/-! ## JSON records

A transcript line, once `JSON.parse`d.  The parser reads fields through the
TypeScript annotations (`as string | undefined` etc.), so fields are
extracted as typed options; a field of the wrong shape behaves like an
absent one.  JS truthiness on an extracted string (`if (!toolId) return`)
treats the empty string like an absent field. -/

inductive Json where
  | null
  | bool (b : Bool)
  | num (n : Int)
  | str (s : String)
  | arr (elems : List Json)
  | obj (fields : List (String × Json))

/-- Property access `record.key` on a decoded JSON value. -/
def Json.get? : Json → String → Option Json
  | .obj fields, k => fields.lookup k
  | _, _ => none

def Json.asString? : Json → Option String
  | .str s => some s
  | _ => none

/-- JS falsiness of a JSON value (`null`, `false`, `0`, `""`). -/
def Json.isFalsy : Json → Bool
  | .null => true
  | .bool b => !b
  | .num n => n == 0
  | .str s => s.isEmpty
  | _ => false

/-- `record.key` read as a string (non-strings behave as absent). -/
def jStr? (j : Json) (k : String) : Option String := (j.get? k).bind Json.asString?

/-- JS truthiness of the raw field value — the guard `if (!record.key)`.
The `as string | undefined` casts in the source are erased at runtime, so
the guard passes for *any* truthy value, string or not. -/
def jTruthyField (j : Json) (k : String) : Bool :=
  match j.get? k with
  | some v => !v.isFalsy
  | none => false

/-- A truthy identifier field read as a string.  The identifiers of this
embedding (tool-call ids, tool names) are strings: a truthy identifier of
another JSON type — which the source would carry through as a raw
`Set`/`Map` key — is outside the embedding's identifier domain and yields
`none`.  Every truthiness *guard* is `jTruthyField` (the source's check);
`jStrT?` is only the extraction that follows a passed guard. -/
def jStrT? (j : Json) (k : String) : Option String :=
  match jStr? j k with
  | some s => if s.isEmpty then none else some s
  | none => none

/-- `record.type === t`. -/
def typeIs (j : Json) (t : String) : Bool := jStr? j "type" == some t

/-- `record.message?.content`. -/
def msgContent? (j : Json) : Option Json :=
  (j.get? "message").bind (fun m => m.get? "content")

/-- `block.input || record` with the JS `|| {}` default. -/
def jsonOrEmptyObj (o : Option Json) : Json :=
  match o with
  | some j => if j.isFalsy then Json.obj [] else j
  | none => Json.obj []

/-! ## Agent state and events

`AgentState` is the `WebAgentState` / `AgentState` record of `types.ts`
(the fields the core mutates).  The per-agent entries of the external
`waitingTimers` / `permissionTimers` maps are embedded as the two Bool
fields `waitingTimer` / `permissionTimer` ("an active timer is installed
for this agent id"). -/

inductive Provider where
  | claude
  | codex
deriving DecidableEq

structure AgentState where
  provider : Provider
  projectDir : String
  jsonlFile : String
  fileOffset : Nat
  lineBuffer : List Char
  activeToolIds : List String
  activeToolStatuses : List (String × String)
  activeToolNames : List (String × String)
  activeSubagentToolIds : List (String × List String)
  activeSubagentToolNames : List (String × List (String × String))
  isWaiting : Bool
  permissionSent : Bool
  hadToolsInTurn : Bool
  waitingTimer : Bool
  permissionTimer : Bool
deriving DecidableEq

/-- Events posted to subscribers (`send(...)` / `webview.postMessage`),
minus the agent id (one agent is in scope throughout). -/
inductive Event where
  | agentStatus (status : String)
  | agentToolStart (toolId status : String)
  | agentToolDone (toolId : String)
  | agentToolsClear
  | subagentToolStart (parentToolId toolId status : String)
  | subagentToolDone (parentToolId toolId : String)
  | subagentClear (parentToolId : String)
  | agentToolPermissionClear
deriving DecidableEq

/-- Result of processing one transcript line: the new agent state, the
events sent synchronously (in order), and the events whose sending is
scheduled through `setTimeout` with a display-lag delay (in scheduling
order). -/
structure ParseOut where
  state : AgentState
  sent : List Event
  scheduled : List Event
deriving DecidableEq

/-! JS collection operations on the insertion-ordered `Set`/`Map` fields. -/

def setInsert (xs : List String) (x : String) : List String :=
  if x ∈ xs then xs else xs ++ [x]

def setDelete (xs : List String) (x : String) : List String :=
  xs.filter (fun y => y != x)

def mapSet {α : Type} (m : List (String × α)) (k : String) (v : α) : List (String × α) :=
  if (m.lookup k).isSome then m.map (fun p => if p.1 == k then (k, v) else p)
  else m ++ [(k, v)]

def mapDelete {α : Type} (m : List (String × α)) (k : String) : List (String × α) :=
  m.filter (fun p => p.1 != k)

/-- `activeSubagentToolIds.get(parent)` (creating the set) followed by
`subTools.add(x)`. -/
def subSetAdd (m : List (String × List String)) (parent x : String) :
    List (String × List String) :=
  match m.lookup parent with
  | some set => m.map (fun p => if p.1 == parent then (parent, setInsert set x) else p)
  | none => m ++ [(parent, [x])]

/-- `activeSubagentToolNames.get(parent)` (creating the map) followed by
`subNames.set(k, v)`. -/
def subMapSet (m : List (String × List (String × String))) (parent k v : String) :
    List (String × List (String × String)) :=
  match m.lookup parent with
  | some inner => m.map (fun p => if p.1 == parent then (parent, mapSet inner k v) else p)
  | none => m ++ [(parent, [(k, v)])]

/-- `activeSubagentToolIds.get(parent)?.delete(x)`. -/
def subSetDelete (m : List (String × List String)) (parent x : String) :
    List (String × List String) :=
  m.map (fun p => if p.1 == parent then (parent, setDelete p.2 x) else p)

/-- `activeSubagentToolNames.get(parent)?.delete(k)`. -/
def subMapDelete (m : List (String × List (String × String))) (parent k : String) :
    List (String × List (String × String)) :=
  m.map (fun p => if p.1 == parent then (parent, mapDelete p.2 k) else p)

/-! ## Display-status formatting (transcriptParser.ts) -/

/-- Modelled from the spec: `constants.ts` is not under `src/`.  §4.1 says
command lines are "truncated to a fixed display length with an ellipsis
marker" and §9 says the exact constants are empirically tuned values with
no documented derivation, so the two display-length limits
(`BASH_COMMAND_DISPLAY_MAX_LENGTH`, `TASK_DESCRIPTION_DISPLAY_MAX_LENGTH`)
are carried as parameters rather than given invented values. -/
structure DisplayConfig where
  bashCommandDisplayMaxLength : Nat
  taskDescriptionDisplayMaxLength : Nat

/-- `s.length > maxLen ? s.slice(0, maxLen) + '…' : s`. -/
def truncateWithEllipsis (maxLen : Nat) (s : String) : String :=
  if maxLen < s.length then String.mk (s.data.take maxLen) ++ "…" else s

def PERMISSION_EXEMPT_TOOLS : List String := ["Task", "AskUserQuestion"]

def CODEX_PERMISSION_SENSITIVE_TOOLS : List String := ["exec_command", "shell_command"]

/-- `path.basename` for POSIX paths: strip trailing separators, then keep
the part after the last separator. -/
def basename (p : String) : String :=
  String.mk ((p.data.reverse.dropWhile (fun c => c == '/')).takeWhile
    (fun c => c != '/')).reverse

/-- `typeof p === 'string' ? path.basename(p) : ''`. -/
def baseOf (o : Option Json) : String :=
  match o.bind Json.asString? with
  | some p => basename p
  | none => ""

/-- `formatToolStatus` of transcriptParser.ts: pure derivation of the
display status from tool name + arguments (Dialect A / claude). -/
def formatToolStatus (cfg : DisplayConfig) (toolName : String) (input : Json) : String :=
  match toolName with
  | "Read" => "Reading " ++ baseOf (input.get? "file_path")
  | "Edit" => "Editing " ++ baseOf (input.get? "file_path")
  | "Write" => "Writing " ++ baseOf (input.get? "file_path")
  | "Bash" =>
    let cmd := (jStr? input "command").getD ""
    "Running: " ++ truncateWithEllipsis cfg.bashCommandDisplayMaxLength cmd
  | "Glob" => "Searching files"
  | "Grep" => "Searching code"
  | "WebFetch" => "Fetching web content"
  | "WebSearch" => "Searching the web"
  | "Task" =>
    let desc := (jStr? input "description").getD ""
    if desc.isEmpty then "Running subtask"
    else "Subtask: " ++ truncateWithEllipsis cfg.taskDescriptionDisplayMaxLength desc
  | "AskUserQuestion" => "Waiting for your answer"
  | "EnterPlanMode" => "Planning"
  | "NotebookEdit" => "Editing notebook"
  | _ => "Using " ++ toolName

/-- `safeJsonParseObject`: the source `JSON.parse`s the string-valued
`arguments` field inside try/catch and falls back to `{}` unless the
result is an object.  The embedding receives the parse result directly
(`none` standing for an absent, non-string or unparseable argument) and
keeps the object-or-`{}` fallback. -/
def safeJsonParseObject (raw : Option Json) : Json :=
  match raw with
  | some (Json.obj fields) => Json.obj fields
  | _ => Json.obj []

/-- `formatCodexToolStatus` (Dialect B / codex). -/
def formatCodexToolStatus (cfg : DisplayConfig) (toolName : String) (rawArgs : Option Json) :
    String :=
  let args := safeJsonParseObject rawArgs
  match toolName with
  | "exec_command" =>
    let cmd := (jStr? args "cmd").getD ""
    if cmd.isEmpty then "Running command"
    else "Running: " ++ truncateWithEllipsis cfg.bashCommandDisplayMaxLength cmd
  | "shell_command" =>
    let cmd := (jStr? args "command").getD ""
    if cmd.isEmpty then "Running command"
    else "Running: " ++ truncateWithEllipsis cfg.bashCommandDisplayMaxLength cmd
  | "write_stdin" => "Interacting with command"
  | "update_plan" => "Updating plan"
  | "apply_patch" => "Editing files"
  | _ => "Using " ++ toolName

/-! ## Timer manager

`timerManager.ts` is not under `src/`; the first four operations are
modelled from §4.2 of the spec ("both single-shot, both
cancel-and-replace", "cancellation is always explicit and idempotent").
An armed timer for this agent is the corresponding Bool field; the firing
of a timer is a separate event outside these per-line transitions. -/

/-- Modelled from the spec: cancel the agent's waiting timer (idempotent). -/
def cancelWaitingTimer (s : AgentState) : AgentState := { s with waitingTimer := false }

/-- Modelled from the spec: cancel any waiting timer and arm a fresh
single-shot one. -/
def startWaitingTimer (s : AgentState) : AgentState := { s with waitingTimer := true }

/-- Modelled from the spec: cancel the agent's permission timer
(idempotent). -/
def cancelPermissionTimer (s : AgentState) : AgentState := { s with permissionTimer := false }

/-- Modelled from the spec: cancel any permission timer and arm a fresh
single-shot one. -/
def startPermissionTimer (s : AgentState) : AgentState := { s with permissionTimer := true }

/-- Modelled from the spec: `clearAgentActivity` of timerManager.ts (not
under `src/`).  §3: tool invocations are cleared when a new user turn
starts; §4.1: "fully clear tool state"; §4.3: reassignment "clears
in-flight tool state (emitting a clear event)".  The signature receives
the permission-timer map, so the permission timer is cancelled; when tool
invocations are in flight, all tool/sub-tool bookkeeping is cleared and a
single `tools-clear` event is emitted (mirroring the in-source
`setWaitingStatus`, which performs the same clearing inline). -/
def clearAgentActivity (s : AgentState) : AgentState × List Event :=
  let s1 := cancelPermissionTimer s
  if s1.activeToolIds.isEmpty then (s1, [])
  else
    ({ s1 with
        activeToolIds := [], activeToolStatuses := [], activeToolNames := [],
        activeSubagentToolIds := [], activeSubagentToolNames := [] },
      [Event.agentToolsClear])

/-- `setWaitingStatus` of transcriptParser.ts: the authoritative
transition to `waiting`. -/
def setWaitingStatus (s : AgentState) : AgentState × List Event :=
  let s1 := cancelPermissionTimer (cancelWaitingTimer s)
  let r :=
    if s1.activeToolIds.isEmpty then (s1, ([] : List Event))
    else
      ({ s1 with
          activeToolIds := [], activeToolStatuses := [], activeToolNames := [],
          activeSubagentToolIds := [], activeSubagentToolNames := [] },
        [Event.agentToolsClear])
  ({ r.1 with isWaiting := true, permissionSent := false, hadToolsInTurn := false },
    r.2 ++ [Event.agentStatus "waiting"])

/-- New-turn handling shared by a Dialect A fresh user prompt and a
Dialect B `user_message`/`turn_aborted`: cancel the waiting timer, clear
activity, reset the had-tool-use flag. -/
def newUserTurn (s : AgentState) : ParseOut :=
  let s1 := cancelWaitingTimer s
  let r := clearAgentActivity s1
  ⟨{ r.1 with hadToolsInTurn := false }, r.2, []⟩

/-! ## Dialect A (claude) record processing -/

/-- One iteration of the `tool_use` loop of the `assistant` branch
(`if (block.type === 'tool_use' && block.id)`).  Accumulator:
(state, sent events, `hasNonExemptTool`). -/
def claudeToolUseStep (cfg : DisplayConfig) (acc : AgentState × List Event × Bool)
    (b : Json) : AgentState × List Event × Bool :=
  if jStr? b "type" == some "tool_use" && jTruthyField b "id" then
    match jStrT? b "id" with
    | some bid =>
      let s := acc.1
      let toolName := (jStr? b "name").getD ""
      let status := formatToolStatus cfg toolName (jsonOrEmptyObj (b.get? "input"))
      let s' := { s with
        activeToolIds := setInsert s.activeToolIds bid,
        activeToolStatuses := mapSet s.activeToolStatuses bid status,
        activeToolNames := mapSet s.activeToolNames bid toolName }
      (s', acc.2.1 ++ [Event.agentToolStart bid status],
        acc.2.2 || !(PERMISSION_EXEMPT_TOOLS.contains toolName))
    | none => acc
  else acc

/-- The `assistant` branch of `processTranscriptLine`.  Note the source
sends `agentStatus active` before the per-block `agentToolStart` events. -/
def processClaudeAssistant (cfg : DisplayConfig) (blocks : List Json) (s : AgentState) :
    ParseOut :=
  let hasToolUse := blocks.any (fun b => jStr? b "type" == some "tool_use")
  if hasToolUse then
    let s1 := { cancelWaitingTimer s with isWaiting := false, hadToolsInTurn := true }
    let acc := blocks.foldl (claudeToolUseStep cfg) (s1, [], false)
    let s2 := if acc.2.2 then startPermissionTimer acc.1 else acc.1
    ⟨s2, Event.agentStatus "active" :: acc.2.1, []⟩
  else if blocks.any (fun b => jStr? b "type" == some "text") && !s.hadToolsInTurn then
    ⟨startWaitingTimer s, [], []⟩
  else ⟨s, [], []⟩

/-- One iteration of the `tool_result` loop of the `user` branch.
Accumulator: (state, sent events, scheduled `agentToolDone` events). -/
def claudeToolResultStep (acc : AgentState × List Event × List Event) (b : Json) :
    AgentState × List Event × List Event :=
  if jStr? b "type" == some "tool_result" && jTruthyField b "tool_use_id" then
    match jStrT? b "tool_use_id" with
    | some tid =>
      let s := acc.1
      let isTask := s.activeToolNames.lookup tid == some "Task"
      let s2 := { s with
        activeToolIds := setDelete s.activeToolIds tid,
        activeToolStatuses := mapDelete s.activeToolStatuses tid,
        activeToolNames := mapDelete s.activeToolNames tid,
        activeSubagentToolIds :=
          if isTask then mapDelete s.activeSubagentToolIds tid else s.activeSubagentToolIds,
        activeSubagentToolNames :=
          if isTask then mapDelete s.activeSubagentToolNames tid
          else s.activeSubagentToolNames }
      (s2, acc.2.1 ++ (if isTask then [Event.subagentClear tid] else []),
        acc.2.2 ++ [Event.agentToolDone tid])
    | none => acc
  else acc

/-- The `user`-record branch when `message.content` is an array of blocks. -/
def processClaudeUserBlocks (blocks : List Json) (s : AgentState) : ParseOut :=
  let hasToolResult := blocks.any (fun b => jStr? b "type" == some "tool_result")
  if hasToolResult then
    let acc := blocks.foldl claudeToolResultStep (s, [], [])
    let s' := if acc.1.activeToolIds.isEmpty then { acc.1 with hadToolsInTurn := false }
      else acc.1
    ⟨s', acc.2.1, acc.2.2⟩
  else newUserTurn s

/-- One iteration of the sub-tool `tool_use` loop of `agent_progress`
handling. -/
def claudeSubToolUseStep (cfg : DisplayConfig) (parentToolId : String)
    (acc : AgentState × List Event × Bool) (b : Json) : AgentState × List Event × Bool :=
  if jStr? b "type" == some "tool_use" && jTruthyField b "id" then
    match jStrT? b "id" with
    | some bid =>
      let s := acc.1
      let toolName := (jStr? b "name").getD ""
      let status := formatToolStatus cfg toolName (jsonOrEmptyObj (b.get? "input"))
      let s' := { s with
        activeSubagentToolIds := subSetAdd s.activeSubagentToolIds parentToolId bid,
        activeSubagentToolNames :=
          subMapSet s.activeSubagentToolNames parentToolId bid toolName }
      (s', acc.2.1 ++ [Event.subagentToolStart parentToolId bid status],
        acc.2.2 || !(PERMISSION_EXEMPT_TOOLS.contains toolName))
    | none => acc
  else acc

/-- One iteration of the sub-tool `tool_result` loop of `agent_progress`
handling.  Accumulator: (state, scheduled `subagentToolDone` events). -/
def claudeSubToolResultStep (parentToolId : String) (acc : AgentState × List Event)
    (b : Json) : AgentState × List Event :=
  if jStr? b "type" == some "tool_result" && jTruthyField b "tool_use_id" then
    match jStrT? b "tool_use_id" with
    | some tid =>
      let s := acc.1
      let s' := { s with
        activeSubagentToolIds := subSetDelete s.activeSubagentToolIds parentToolId tid,
        activeSubagentToolNames := subMapDelete s.activeSubagentToolNames parentToolId tid }
      (s', acc.2 ++ [Event.subagentToolDone parentToolId tid])
    | none => acc
  else acc

/-- Any still-active non-exempt sub-agent tool across all parents. -/
def stillHasNonExemptSubTool (s : AgentState) : Bool :=
  s.activeSubagentToolNames.any
    (fun p => p.2.any (fun q => !(PERMISSION_EXEMPT_TOOLS.contains q.2)))

/-- `processProgressRecord` of transcriptParser.ts
(`if (!parentToolId) return;` is the raw truthiness guard). -/
def processProgressRecord (cfg : DisplayConfig) (j : Json) (s : AgentState) : ParseOut :=
  if !jTruthyField j "parentToolUseID" then ⟨s, [], []⟩
  else
  match jStrT? j "parentToolUseID" with
  | none => ⟨s, [], []⟩
  | some parentToolId =>
    match j.get? "data" with
    | none => ⟨s, [], []⟩
    | some data =>
      if data.isFalsy then ⟨s, [], []⟩
      else
        let dataType := jStr? data "type"
        if dataType == some "bash_progress" || dataType == some "mcp_progress" then
          if s.activeToolIds.contains parentToolId then ⟨startPermissionTimer s, [], []⟩
          else ⟨s, [], []⟩
        else if !(s.activeToolNames.lookup parentToolId == some "Task") then ⟨s, [], []⟩
        else
          match data.get? "message" with
          | none => ⟨s, [], []⟩
          | some msg =>
            if msg.isFalsy then ⟨s, [], []⟩
            else
              let msgType := jStr? msg "type"
              match (msg.get? "message").bind (fun im => im.get? "content") with
              | some (Json.arr content) =>
                if msgType == some "assistant" then
                  let acc := content.foldl (claudeSubToolUseStep cfg parentToolId)
                    (s, [], false)
                  ⟨if acc.2.2 then startPermissionTimer acc.1 else acc.1, acc.2.1, []⟩
                else if msgType == some "user" then
                  let acc := content.foldl (claudeSubToolResultStep parentToolId) (s, [])
                  ⟨if stillHasNonExemptSubTool acc.1 then startPermissionTimer acc.1
                    else acc.1, [], acc.2⟩
                else ⟨s, [], []⟩
              | _ => ⟨s, [], []⟩

/-- The Dialect A (claude) part of `processTranscriptLine`, after JSON
parsing succeeded. -/
def processClaudeLine (cfg : DisplayConfig) (j : Json) (s : AgentState) : ParseOut :=
  if typeIs j "assistant" then
    match msgContent? j with
    | some (Json.arr blocks) => processClaudeAssistant cfg blocks s
    | _ => ⟨s, [], []⟩
  else if typeIs j "progress" then processProgressRecord cfg j s
  else if typeIs j "user" then
    match msgContent? j with
    | some (Json.arr blocks) => processClaudeUserBlocks blocks s
    | some (Json.str c) => if c.trim.isEmpty then ⟨s, [], []⟩ else newUserTurn s
    | _ => ⟨s, [], []⟩
  else if typeIs j "system" && jStr? j "subtype" == some "turn_duration" then
    let r := setWaitingStatus s
    ⟨r.1, r.2, []⟩
  else ⟨s, [], []⟩

/-! ## Dialect B (codex) record processing -/

/-- `record.payload?.type`. -/
def payloadType? (j : Json) : Option String :=
  (j.get? "payload").bind (fun p => jStr? p "type")

/-- `processCodexTranscriptLine` of transcriptParser.ts. -/
def processCodexLine (cfg : DisplayConfig) (j : Json) (s : AgentState) : ParseOut :=
  if typeIs j "event_msg" then
    let et := payloadType? j
    if et == some "user_message" || et == some "turn_aborted" then newUserTurn s
    else if et == some "task_complete" then
      let r := setWaitingStatus s
      ⟨r.1, r.2, []⟩
    else ⟨s, [], []⟩
  else if typeIs j "response_item" then
    match j.get? "payload" with
    | none => ⟨s, [], []⟩
    | some payload =>
      if payload.isFalsy then ⟨s, [], []⟩
      else
        match jStr? payload "type" with
        | some "function_call" =>
          if jTruthyField payload "call_id" && jTruthyField payload "name" then
            match jStrT? payload "call_id", jStrT? payload "name" with
            | some toolId, some toolName =>
              let status := formatCodexToolStatus cfg toolName (payload.get? "arguments")
              let s1 := { s with
                activeToolIds := setInsert s.activeToolIds toolId,
                activeToolStatuses := mapSet s.activeToolStatuses toolId status,
                activeToolNames := mapSet s.activeToolNames toolId toolName,
                isWaiting := false, hadToolsInTurn := true }
              let s2 := if CODEX_PERMISSION_SENSITIVE_TOOLS.contains toolName then
                startPermissionTimer s1 else s1
              ⟨s2, [Event.agentStatus "active", Event.agentToolStart toolId status], []⟩
            | _, _ => ⟨s, [], []⟩
          else ⟨s, [], []⟩
        | some "function_call_output" =>
          if jTruthyField payload "call_id" then
            match jStrT? payload "call_id" with
            | some toolId =>
              let existed := s.activeToolIds.contains toolId
              let s1 := { s with
                activeToolIds := setDelete s.activeToolIds toolId,
                activeToolStatuses := mapDelete s.activeToolStatuses toolId,
                activeToolNames := mapDelete s.activeToolNames toolId }
              let s2 := if s1.activeToolIds.isEmpty then { s1 with hadToolsInTurn := false }
                else s1
              ⟨s2, [], if existed then [Event.agentToolDone toolId] else []⟩
            | none => ⟨s, [], []⟩
          else ⟨s, [], []⟩
        | some "message" =>
          if jStr? payload "role" == some "assistant" then
            if jStr? payload "phase" == some "final_answer" then
              let r := setWaitingStatus s
              ⟨r.1, r.2, []⟩
            else if !s.hadToolsInTurn then ⟨startWaitingTimer s, [], []⟩
            else ⟨s, [], []⟩
          else ⟨s, [], []⟩
        | _ => ⟨s, [], []⟩
  else ⟨s, [], []⟩

/-- `processTranscriptLine` after `JSON.parse`: branch once on the
provider at the entry point. -/
def processTranscriptLineJson (cfg : DisplayConfig) (j : Json) (s : AgentState) : ParseOut :=
  if s.provider = Provider.codex then processCodexLine cfg j s else processClaudeLine cfg j s

/-- `processTranscriptLine` of transcriptParser.ts on one raw line.  The
input is the result of `JSON.parse(line)`; `none` is a parse failure,
swallowed by the catch-all (`// Ignore malformed lines`). -/
def processTranscriptLine (cfg : DisplayConfig) (oj : Option Json) (s : AgentState) :
    ParseOut :=
  match oj with
  | none => ⟨s, [], []⟩
  | some j => processTranscriptLineJson cfg j s

/-! ## Recognized record shapes

The dispatch guards of the two dialects, written independently of the
processing functions: a record is *recognized* when it passes the
discriminator tests of some branch body.  Malformed JSON (`none`) and any
unrecognized shape must be silently skipped. -/

def contentIsArr (j : Json) : Bool :=
  match msgContent? j with
  | some (Json.arr _) => true
  | _ => false

def userContentRecognized (j : Json) : Bool :=
  match msgContent? j with
  | some (Json.arr _) => true
  | some (Json.str c) => !c.trim.isEmpty
  | _ => false

/-- Dialect A discriminators: `assistant` with array content, `progress`,
`user` with array content or non-blank string content, `system` with
subtype `turn_duration`. -/
def claudeRecognized (j : Json) : Bool :=
  (typeIs j "assistant" && contentIsArr j)
  || typeIs j "progress"
  || (typeIs j "user" && userContentRecognized j)
  || (typeIs j "system" && jStr? j "subtype" == some "turn_duration")

/-- Dialect B discriminators: `event_msg` with one of the three handled
payload types, or `response_item` with a truthy payload of type
`function_call` (`call_id` and `name` truthy — the source's
`if (!toolId || !toolName) return;` on the raw, cast-erased values),
`function_call_output` (`call_id` truthy) or assistant `message`.  A
record that passes these guards is processed by the source (for truthy
non-string identifiers with the raw value as the key), so it is
*recognized* here and never certified as silently skipped. -/
def codexRecognized (j : Json) : Bool :=
  (typeIs j "event_msg"
    && (payloadType? j == some "user_message" || payloadType? j == some "turn_aborted"
        || payloadType? j == some "task_complete"))
  || (typeIs j "response_item"
      && (match j.get? "payload" with
          | none => false
          | some payload =>
            !payload.isFalsy
            && ((jStr? payload "type" == some "function_call"
                  && jTruthyField payload "call_id" && jTruthyField payload "name")
                || (jStr? payload "type" == some "function_call_output"
                    && jTruthyField payload "call_id")
                || (jStr? payload "type" == some "message"
                    && jStr? payload "role" == some "assistant"))))

def lineRecognized (p : Provider) : Option Json → Bool
  | none => false
  | some j =>
    match p with
    | .claude => claudeRecognized j
    | .codex => codexRecognized j

theorem processClaudeLine_unrecognized (cfg : DisplayConfig) (j : Json) (s : AgentState)
    (h : claudeRecognized j = false) : processClaudeLine cfg j s = ⟨s, [], []⟩ := by
  unfold processClaudeLine
  repeat' split <;> try rfl
  all_goals exfalso
  all_goals simp_all [claudeRecognized, contentIsArr, userContentRecognized]

theorem processCodexLine_unrecognized (cfg : DisplayConfig) (j : Json) (s : AgentState)
    (h : codexRecognized j = false) : processCodexLine cfg j s = ⟨s, [], []⟩ := by
  unfold processCodexLine
  dsimp only
  repeat' split <;> try rfl
  all_goals exfalso
  all_goals simp_all [codexRecognized]

/-- **C6**.  For every input line and agent state, `processTranscriptLine`
is a total function (it terminates normally — the source wraps everything
in try/catch), and a line that is not valid JSON (`none`) or whose shape
is not recognized by the dialect dispatch changes no agent state and emits
and schedules no events.  "Recognized" is exactly the source's guard
conditions, with the identifier guards taken as JS truthiness of the raw
field value (`jTruthyField`) as in `if (!toolId || !toolName) return;` —
so a record carrying a truthy identifier of any JSON type is recognized
(the source processes it) and is never certified as silently skipped. -/
theorem c6_malformed_lines_skipped (cfg : DisplayConfig) (oj : Option Json)
    (s : AgentState) (h : lineRecognized s.provider oj = false) :
    processTranscriptLine cfg oj s = ⟨s, [], []⟩ := by
  cases oj with
  | none => rfl
  | some j =>
    cases hp : s.provider with
    | claude =>
      rw [hp] at h
      simp only [lineRecognized] at h
      simp only [processTranscriptLine, processTranscriptLineJson, hp]
      simp only [reduceCtorEq, if_false]
      exact processClaudeLine_unrecognized cfg j s h
    | codex =>
      rw [hp] at h
      simp only [lineRecognized] at h
      simp only [processTranscriptLine, processTranscriptLineJson, hp, if_true]
      exact processCodexLine_unrecognized cfg j s h

/-! ## Concrete records and states for the scenario claims -/

/-- The agent record created at spawn/adoption: empty tool state, offset 0,
no flags set, no timers armed. -/
def initialAgentState (p : Provider) (projectDir jsonlFile : String) : AgentState where
  provider := p
  projectDir := projectDir
  jsonlFile := jsonlFile
  fileOffset := 0
  lineBuffer := []
  activeToolIds := []
  activeToolStatuses := []
  activeToolNames := []
  activeSubagentToolIds := []
  activeSubagentToolNames := []
  isWaiting := false
  permissionSent := false
  hadToolsInTurn := false
  waitingTimer := false
  permissionTimer := false

/-- The Dialect A assistant record of the C2 scenario. -/
def c2Record : Json :=
  Json.obj [("type", Json.str "assistant"),
    ("message", Json.obj [("content", Json.arr [
      Json.obj [("type", Json.str "tool_use"), ("id", Json.str "t1"),
        ("name", Json.str "Bash"),
        ("input", Json.obj [("command", Json.str "ls -la")])]])])]

def c2Cfg : DisplayConfig := ⟨60, 40⟩

def c2State : AgentState := initialAgentState Provider.claude "/proj" "/proj/s1.jsonl"

/-- A Dialect A user record closing tool invocation `tid`. -/
def claudeToolResultRecord (tid : String) : Json :=
  Json.obj [("type", Json.str "user"),
    ("message", Json.obj [("content", Json.arr [
      Json.obj [("type", Json.str "tool_result"), ("tool_use_id", Json.str tid)]])])]

/-- A Dialect B `function_call_output` record closing call `cid`. -/
def codexFunctionCallOutputRecord (cid : String) : Json :=
  Json.obj [("type", Json.str "response_item"),
    ("payload", Json.obj [("type", Json.str "function_call_output"),
      ("call_id", Json.str cid)])]

/-- A Dialect A text-only assistant record. -/
def claudeTextRecord : Json :=
  Json.obj [("type", Json.str "assistant"),
    ("message", Json.obj [("content", Json.arr [Json.obj [("type", Json.str "text")]])])]

/-- A Dialect B assistant `message` record without a `final_answer` phase. -/
def codexAssistantMessageRecord : Json :=
  Json.obj [("type", Json.str "response_item"),
    ("payload", Json.obj [("type", Json.str "message"), ("role", Json.str "assistant")])]

theorem string_isEmpty_false_of_ne {a : String} (h : a ≠ "") : a.isEmpty = false := by
  cases hb : a.isEmpty with
  | false => rfl
  | true => exact absurd ((String.isEmpty_iff a).mp hb) h

/-- **C2** (amended).  For a Dialect A (claude) agent, processing the
assistant record with the single tool_use block
`id "t1", name "Bash", input command "ls -la"` emits exactly one
`agent-status active` event and exactly one `tool-start` event with toolId
`t1` and status `Running: ls -la`, and nothing else — but the
`agent-status` event is emitted *before* the `tool-start` event (the
source sends the status update first, then the per-block tool starts),
not after it as the claim states; see the counterexample. -/
theorem c2_assistant_tool_use_events (cfg : DisplayConfig) (s : AgentState)
    (hp : s.provider = Provider.claude)
    (hlen : 6 ≤ cfg.bashCommandDisplayMaxLength) :
    (processTranscriptLine cfg (some c2Record) s).sent
      = [Event.agentStatus "active", Event.agentToolStart "t1" "Running: ls -la"] ∧
    (processTranscriptLine cfg (some c2Record) s).scheduled = [] := by
  have hlen6 : ("ls -la" : String).length = 6 := rfl
  have htrunc : truncateWithEllipsis cfg.bashCommandDisplayMaxLength "ls -la" = "ls -la" := by
    unfold truncateWithEllipsis
    rw [hlen6, if_neg (Nat.not_lt.mpr hlen)]
  have ht1 : ("t1" : String).isEmpty = false := rfl
  constructor <;>
    simp [processTranscriptLine, processTranscriptLineJson, hp, processClaudeLine,
      c2Record, typeIs, jStr?, jStrT?, Json.get?, Json.asString?, msgContent?,
      processClaudeAssistant, claudeToolUseStep, formatToolStatus, jsonOrEmptyObj,
      Json.isFalsy, jTruthyField, htrunc, ht1, List.lookup, PERMISSION_EXEMPT_TOOLS]

/-- **C2** counterexample to the claimed order: at a concrete
configuration and a fresh claude agent, the two events are emitted with
`agent-status active` first and `tool-start` second, so the claimed
"tool-start before agent-status" order is false. -/
theorem c2_order_counterexample :
    (processTranscriptLine c2Cfg (some c2Record) c2State).sent
      = [Event.agentStatus "active", Event.agentToolStart "t1" "Running: ls -la"] ∧
    (processTranscriptLine c2Cfg (some c2Record) c2State).sent
      ≠ [Event.agentToolStart "t1" "Running: ls -la", Event.agentStatus "active"] := by
  constructor
  · rfl
  · decide

theorem c2_witness :
    c2State.provider = Provider.claude ∧ 6 ≤ c2Cfg.bashCommandDisplayMaxLength ∧
    ((processTranscriptLine c2Cfg (some c2Record) c2State).sent
        = [Event.agentStatus "active", Event.agentToolStart "t1" "Running: ls -la"] ∧
      (processTranscriptLine c2Cfg (some c2Record) c2State).scheduled = []) :=
  ⟨rfl, by decide, c2_assistant_tool_use_events c2Cfg c2State rfl (by decide)⟩

theorem c6_witness :
    lineRecognized c2State.provider
        (some (Json.obj [("type", Json.str "bogus")])) = false ∧
    processTranscriptLine c2Cfg (some (Json.obj [("type", Json.str "bogus")])) c2State
      = ⟨c2State, [], []⟩ :=
  ⟨by decide, c6_malformed_lines_skipped c2Cfg _ c2State (by decide)⟩

/-- **C9**.  The two dialects close tool invocations asymmetrically: a
Dialect A user record with a `tool_result` block always schedules the
delayed `tool-done` event, even when the id is not in
`activeToolInvocations`; a Dialect B `function_call_output` schedules it
only if the call id was currently active — for an unknown id it schedules
nothing. -/
theorem c9_tool_close_asymmetry (cfg : DisplayConfig) (s t : AgentState)
    (tid cid : String)
    (hps : s.provider = Provider.claude) (htid : tid ≠ "")
    (hmem : s.activeToolIds.contains tid = false)
    (hpt : t.provider = Provider.codex) (hcid : cid ≠ "")
    (hmem' : t.activeToolIds.contains cid = false) :
    (processTranscriptLine cfg (some (claudeToolResultRecord tid)) s).scheduled
      = [Event.agentToolDone tid] ∧
    (processTranscriptLine cfg (some (codexFunctionCallOutputRecord cid)) t).scheduled
      = [] := by
  constructor
  · simp [processTranscriptLine, processTranscriptLineJson, hps, processClaudeLine,
      claudeToolResultRecord, typeIs, jStr?, jStrT?, Json.get?, Json.asString?,
      msgContent?, processClaudeUserBlocks, claudeToolResultStep, List.lookup,
      Json.isFalsy, jTruthyField, string_isEmpty_false_of_ne htid]
  · have hni : cid ∉ t.activeToolIds := by simpa using hmem'
    simp [processTranscriptLine, processTranscriptLineJson, hpt, processCodexLine,
      codexFunctionCallOutputRecord, typeIs, jStr?, jStrT?, Json.get?, Json.asString?,
      payloadType?, Json.isFalsy, jTruthyField, List.lookup,
      string_isEmpty_false_of_ne hcid, hni]

theorem c9_witness :
    (processTranscriptLine c2Cfg
        (some (claudeToolResultRecord "tX")) c2State).scheduled
      = [Event.agentToolDone "tX"] ∧
    (processTranscriptLine c2Cfg (some (codexFunctionCallOutputRecord "cX"))
        (initialAgentState Provider.codex "/proj" "/proj/s2.jsonl")).scheduled
      = [] :=
  c9_tool_close_asymmetry c2Cfg c2State
    (initialAgentState Provider.codex "/proj" "/proj/s2.jsonl") "tX" "cX"
    rfl (by decide) (by decide) rfl (by decide) (by decide)

/-- **C10**.  In both dialects, when processing tool results empties
`activeToolInvocations`, the `hadToolUseThisTurn` flag is reset to `false`
even though no new user turn has started; consequently a subsequent
text-only assistant record (not marked `final_answer`) arms the waiting
timer mid-turn. -/
theorem c10_had_tools_reset_mid_turn (cfg : DisplayConfig) (s t : AgentState)
    (tid cid : String)
    (hps : s.provider = Provider.claude) (htid : tid ≠ "")
    (hids : s.activeToolIds = [tid])
    (hpt : t.provider = Provider.codex) (hcid : cid ≠ "")
    (hids' : t.activeToolIds = [cid]) :
    ((processTranscriptLine cfg (some (claudeToolResultRecord tid)) s).state.activeToolIds
        = [] ∧
      (processTranscriptLine cfg (some (claudeToolResultRecord tid)) s).state.hadToolsInTurn
        = false ∧
      (processTranscriptLine cfg (some claudeTextRecord)
          (processTranscriptLine cfg (some (claudeToolResultRecord tid)) s).state
        ).state.waitingTimer = true) ∧
    ((processTranscriptLine cfg
          (some (codexFunctionCallOutputRecord cid)) t).state.activeToolIds = [] ∧
      (processTranscriptLine cfg
          (some (codexFunctionCallOutputRecord cid)) t).state.hadToolsInTurn = false ∧
      (processTranscriptLine cfg (some codexAssistantMessageRecord)
          (processTranscriptLine cfg (some (codexFunctionCallOutputRecord cid)) t).state
        ).state.waitingTimer = true) := by
  constructor
  · have h1 : (processTranscriptLine cfg (some (claudeToolResultRecord tid)) s).state
        = { s with
            activeToolIds := [],
            activeToolStatuses := mapDelete s.activeToolStatuses tid,
            activeToolNames := mapDelete s.activeToolNames tid,
            activeSubagentToolIds :=
              if s.activeToolNames.lookup tid == some "Task" then
                mapDelete s.activeSubagentToolIds tid else s.activeSubagentToolIds,
            activeSubagentToolNames :=
              if s.activeToolNames.lookup tid == some "Task" then
                mapDelete s.activeSubagentToolNames tid else s.activeSubagentToolNames,
            hadToolsInTurn := false } := by
      simp [processTranscriptLine, processTranscriptLineJson, hps, processClaudeLine,
        claudeToolResultRecord, typeIs, jStr?, jStrT?, Json.get?, Json.asString?,
        msgContent?, processClaudeUserBlocks, claudeToolResultStep, List.lookup,
        Json.isFalsy, jTruthyField, string_isEmpty_false_of_ne htid, hids, setDelete]
    refine ⟨by rw [h1], by rw [h1], ?_⟩
    rw [h1]
    simp [processTranscriptLine, processTranscriptLineJson, hps, processClaudeLine,
      claudeTextRecord, typeIs, jStr?, jStrT?, Json.get?, Json.asString?, msgContent?,
      processClaudeAssistant, startWaitingTimer, List.lookup]
  · have h1 : (processTranscriptLine cfg (some (codexFunctionCallOutputRecord cid)) t).state
        = { t with
            activeToolIds := [],
            activeToolStatuses := mapDelete t.activeToolStatuses cid,
            activeToolNames := mapDelete t.activeToolNames cid,
            hadToolsInTurn := false } := by
      simp [processTranscriptLine, processTranscriptLineJson, hpt, processCodexLine,
        codexFunctionCallOutputRecord, typeIs, jStr?, jStrT?, Json.get?, Json.asString?,
        payloadType?, Json.isFalsy, jTruthyField, List.lookup,
        string_isEmpty_false_of_ne hcid, hids', setDelete]
    refine ⟨by rw [h1], by rw [h1], ?_⟩
    rw [h1]
    simp [processTranscriptLine, processTranscriptLineJson, hpt, processCodexLine,
      codexAssistantMessageRecord, typeIs, jStr?, jStrT?, Json.get?, Json.asString?,
      payloadType?, Json.isFalsy, startWaitingTimer, List.lookup]

/-! ## The full read routine (readNewLines of fileWatcher.ts)

Composition of the tailer with timer clearing and per-line parsing.  The
`decode` parameter stands for `JSON.parse` on one raw line (`none` =
parse failure).  `parsed` records the lines handed to
`processTranscriptLine`. -/

structure ReadOut where
  state : AgentState
  sent : List Event
  scheduled : List Event
  parsed : List (List Char)
deriving DecidableEq

/-- `readNewLines`: stat; if `size <= fileOffset` no-op; else read the new
byte range, split lines, carry the fragment; if any non-blank line
arrived, cancel both timers and clear a previously sent permission notice;
then feed every non-blank line to the Parser in order. -/
def readNewLinesFull (cfg : DisplayConfig) (decode : List Char → Option Json)
    (file : List Char) (s : AgentState) : ReadOut :=
  if file.length ≤ s.fileOffset then ⟨s, [], [], []⟩
  else
    let p := splitNL (s.lineBuffer ++ file.drop s.fileOffset)
    let s1 := { s with fileOffset := file.length, lineBuffer := p.2 }
    let hasLines := p.1.any (fun l => !(isBlankLine l))
    let r0 :=
      if hasLines then
        let s2 := cancelPermissionTimer (cancelWaitingTimer s1)
        if s2.permissionSent then
          ({ s2 with permissionSent := false }, [Event.agentToolPermissionClear])
        else (s2, ([] : List Event))
      else (s1, ([] : List Event))
    p.1.foldl
      (fun (acc : ReadOut) l =>
        if isBlankLine l then acc
        else
          let out := processTranscriptLine cfg (decode l) acc.state
          ⟨out.state, acc.sent ++ out.sent, acc.scheduled ++ out.scheduled,
            acc.parsed ++ [l]⟩)
      ⟨r0.1, r0.2, [], []⟩

/-- **C5**.  The read routine is idempotent on an unchanged file: whenever
the file size is at most the agent's read offset (as after any prior read
of the same bytes — both the poll handler and the notification handler
funnel into this same routine), `readNewLines` makes no Parser calls,
emits and schedules no events, and leaves the whole agent state (offset,
buffer, tool state, flags, timers) unchanged. -/
theorem c5_read_idempotent (cfg : DisplayConfig) (decode : List Char → Option Json)
    (file : List Char) (s : AgentState) (h : file.length ≤ s.fileOffset) :
    readNewLinesFull cfg decode file s = ⟨s, [], [], []⟩ := by
  unfold readNewLinesFull
  rw [if_pos h]

def c5State : AgentState :=
  { initialAgentState Provider.claude "/proj" "/proj/s1.jsonl" with fileOffset := 3 }

theorem c5_witness :
    (['x'] : List Char).length ≤ c5State.fileOffset ∧
    readNewLinesFull c2Cfg (fun _ => none) ['x'] c5State = ⟨c5State, [], [], []⟩ :=
  ⟨by decide, c5_read_idempotent c2Cfg (fun _ => none) ['x'] c5State (by decide)⟩

theorem c10_witness :
    (let s := { initialAgentState Provider.claude "/p" "/p/a.jsonl" with
        activeToolIds := ["t1"], hadToolsInTurn := true }
    let t := { initialAgentState Provider.codex "/p" "/p/b.jsonl" with
        activeToolIds := ["c1"], hadToolsInTurn := true }
    ((processTranscriptLine c2Cfg (some (claudeToolResultRecord "t1")) s).state.activeToolIds
        = [] ∧
      (processTranscriptLine c2Cfg
          (some (claudeToolResultRecord "t1")) s).state.hadToolsInTurn = false ∧
      (processTranscriptLine c2Cfg (some claudeTextRecord)
          (processTranscriptLine c2Cfg (some (claudeToolResultRecord "t1")) s).state
        ).state.waitingTimer = true) ∧
    ((processTranscriptLine c2Cfg
          (some (codexFunctionCallOutputRecord "c1")) t).state.activeToolIds = [] ∧
      (processTranscriptLine c2Cfg
          (some (codexFunctionCallOutputRecord "c1")) t).state.hadToolsInTurn = false ∧
      (processTranscriptLine c2Cfg (some codexAssistantMessageRecord)
          (processTranscriptLine c2Cfg (some (codexFunctionCallOutputRecord "c1")) t).state
        ).state.waitingTimer = true)) :=
  c10_had_tools_reset_mid_turn c2Cfg _ _ "t1" "c1" rfl (by decide) rfl rfl (by decide) rfl

/-! ## Project scan, reassignment, resync (fileWatcher.ts)

Process-wide tracking state: the agent registry, the per-agent file
watchers and polling intervals (as the sets of agent ids owning one), the
known-files set, and the active-agent ref.  Per-agent waiting/permission
timer map entries are the Bool fields inside each `AgentState`. -/

def startsWithChars : List Char → List Char → Bool
  | [], _ => true
  | _ :: _, [] => false
  | a :: as, b :: bs => a == b && startsWithChars as bs

/-- Substring containment (`String.prototype.includes`). -/
def occursIn (needle : List Char) : List Char → Bool
  | [] => needle.isEmpty
  | c :: t => startsWithChars needle (c :: t) || occursIn needle t

/-- `detectProviderFromJsonlFile`: a path inside a `.codex/sessions`
directory is codex, anything else claude (`path.sep` = `/` on POSIX). -/
def detectProviderFromJsonlFile (p : String) : Provider :=
  if occursIn "/.codex/sessions/".data p.data then Provider.codex else Provider.claude

/-- `getNewestJsonlFile`: pick the most recently modified candidate
(`newestMtime` starts at −1; strictly greater wins, first wins ties).
Candidates carry their `statSync(..).mtimeMs`; files that vanish mid-scan
are simply absent from the list. -/
def getNewestJsonlFile (files : List (String × Int)) : Option String :=
  (files.foldl
    (fun (acc : Option String × Int) f => if f.2 > acc.2 then (some f.1, f.2) else acc)
    (none, -1)).1

structure TrackSt where
  agents : List (Nat × AgentState)
  activeAgentId : Option Nat
  fileWatchers : List Nat
  pollingTimers : List Nat
  knownJsonlFiles : List String
deriving DecidableEq

/-- Messages the scan/resync paths post to subscribers. -/
inductive TrackMsg where
  | agentResynced (id : Nat) (ok : Bool) (reason : Option String)
  | agentDiagnostics (id : Nat)
  | agentEvent (id : Nat) (e : Event)
deriving DecidableEq

/-- In-place mutation of the (already present) agent object held in the
registry map. -/
def updateAgent (agents : List (Nat × AgentState)) (id : Nat) (a : AgentState) :
    List (Nat × AgentState) :=
  agents.map (fun p => if p.1 == id then (id, a) else p)

def natSetAdd (xs : List Nat) (x : Nat) : List Nat :=
  if xs.contains x then xs else xs ++ [x]

def strSetAdd (xs : List String) (x : String) : List String :=
  if xs.contains x then xs else xs ++ [x]

/-- `startFileWatching`: install an fs.watch watcher (best effort — the
success path is modelled; a failure is logged and leaves only the poll)
and a polling interval, both feeding the same read routine. -/
def startFileWatching (agentId : Nat) (st : TrackSt) : TrackSt :=
  { st with
    fileWatchers := natSetAdd st.fileWatchers agentId,
    pollingTimers := natSetAdd st.pollingTimers agentId }

/-- `reassignAgentToFile`: tear down the agent's watcher/poll, cancel both
timers, clear in-flight tool state (forwarding its events), re-derive the
provider from the new path's shape, reset offset/buffer, and re-tail.
(The final `readNewLines` call that resumes tailing is the separately
modelled read routine; its effect depends on the new file's bytes.) -/
def reassignAgentToFile (agentId : Nat) (newFilePath : String) (st : TrackSt) :
    TrackSt × List TrackMsg :=
  match st.agents.lookup agentId with
  | none => (st, [])
  | some agent =>
    let st1 := { st with
      fileWatchers := st.fileWatchers.filter (fun i => i != agentId),
      pollingTimers := st.pollingTimers.filter (fun i => i != agentId) }
    let a1 := cancelPermissionTimer (cancelWaitingTimer agent)
    let r := clearAgentActivity a1
    let a2 := { r.1 with
      provider := detectProviderFromJsonlFile newFilePath,
      jsonlFile := newFilePath, fileOffset := 0, lineBuffer := [] }
    let st2 := { st1 with agents := updateAgent st1.agents agentId a2 }
    (startFileWatching agentId st2, r.2.map (TrackMsg.agentEvent agentId))

/-- One file of a `scanForNewJsonlFiles` pass (the server variant, whose
logic the claim cites; the extension variant additionally adopts files
into a fresh agent when no agent is active).  `file` ranges over the
result of `listProjectJsonlFiles`, an external directory listing. -/
def scanStep (st : TrackSt) (file : String) : TrackSt × List TrackMsg :=
  if st.knownJsonlFiles.contains file then (st, [])
  else
    let st1 := { st with knownJsonlFiles := st.knownJsonlFiles ++ [file] }
    let fileProvider := detectProviderFromJsonlFile file
    match st1.activeAgentId with
    | none => (st1, [])
    | some aid =>
      match st1.agents.lookup aid with
      | some activeAgent =>
        if activeAgent.provider ≠ fileProvider then (st1, [])
        else reassignAgentToFile aid file st1
      | none => reassignAgentToFile aid file st1

/-- A whole scan cycle over the listed files. -/
def scanForNewJsonlFiles (files : List String) (st : TrackSt) : TrackSt × List TrackMsg :=
  files.foldl (fun acc f => let r := scanStep acc.1 f; (r.1, acc.2 ++ r.2)) (st, [])

/-- `resyncAgent` (extension variant of fileWatcher.ts).  `candidates` is
the external `listProjectJsonlFiles(agent.projectDir, agent.provider,
workspacePath)` listing with mtimes; `currentFileExists` is
`fs.existsSync(agent.jsonlFile)`.  Note the watcher/poll teardown and the
timer cancellations happen before the existence check. -/
def resyncAgent (agentId : Nat) (candidates : List (String × Int))
    (currentFileExists : Bool) (st : TrackSt) : TrackSt × List TrackMsg :=
  match st.agents.lookup agentId with
  | none => (st, [TrackMsg.agentResynced agentId false (some "Agent not found")])
  | some agent =>
    let st1 := { st with
      fileWatchers := st.fileWatchers.filter (fun i => i != agentId),
      pollingTimers := st.pollingTimers.filter (fun i => i != agentId) }
    let a1 := cancelPermissionTimer (cancelWaitingTimer agent)
    let st2 := { st1 with agents := updateAgent st1.agents agentId a1 }
    if currentFileExists then
      (startFileWatching agentId st2,
        [TrackMsg.agentDiagnostics agentId, TrackMsg.agentResynced agentId true none])
    else
      match getNewestJsonlFile candidates with
      | none =>
        (st2, [TrackMsg.agentResynced agentId false
          (some "No transcript files found for this agent/provider.")])
      | some newest =>
        let a2 := { a1 with
          provider := detectProviderFromJsonlFile newest,
          jsonlFile := newest, fileOffset := 0, lineBuffer := [] }
        let st3 := { st2 with
          agents := updateAgent st2.agents agentId a2,
          knownJsonlFiles := strSetAdd st2.knownJsonlFiles newest }
        (startFileWatching agentId st3,
          [TrackMsg.agentDiagnostics agentId, TrackMsg.agentResynced agentId true none])

theorem lookup_updateAgent (agents : List (Nat × AgentState)) (id : Nat) (a : AgentState) :
    (updateAgent agents id a).lookup id = (agents.lookup id).map (fun _ => a) := by
  induction agents with
  | nil => rfl
  | cons p ps ih =>
    cases hk : (p.1 == id) with
    | true =>
      have hp : p.1 = id := by simpa using hk
      simp only [updateAgent, List.map_cons]
      rw [hk]
      simp [List.lookup, hp]
    | false =>
      have hne : (id == p.1) = false := by
        have hne' : ¬(p.1 = id) := by simpa using hk
        simpa using fun he => hne' he.symm
      simp only [updateAgent] at ih ⊢
      simp only [List.map_cons]
      rw [hk]
      simp only [List.lookup, hne]
      exact ih

/-! ## C3: scan attribution -/

/-- **C3** (amended).  During a project scan, a newly discovered
transcript file whose inferred provider does not match the active agent's
provider is skipped *and permanently added to the known-files set*, so it
is never attributed in any later scan cycle (a known file is a complete
no-op for the scan); a newly discovered file whose provider matches the
active agent is attributed (reassigned) to that agent, with tailing
restarting at offset 0. -/
theorem c3_scan_attribution (st : TrackSt) (f : String) (aid : Nat) (ag : AgentState)
    (hknown : st.knownJsonlFiles.contains f = false)
    (hactive : st.activeAgentId = some aid)
    (hlook : st.agents.lookup aid = some ag) :
    (∀ st' : TrackSt, st'.knownJsonlFiles.contains f = true → scanStep st' f = (st', [])) ∧
    (ag.provider ≠ detectProviderFromJsonlFile f →
      scanStep st f = ({ st with knownJsonlFiles := st.knownJsonlFiles ++ [f] }, [])) ∧
    (ag.provider = detectProviderFromJsonlFile f →
      ((scanStep st f).1.agents.lookup aid).map AgentState.jsonlFile = some f ∧
      ((scanStep st f).1.agents.lookup aid).map AgentState.fileOffset = some 0 ∧
      (scanStep st f).1.knownJsonlFiles.contains f = true) := by
  have hknown' : ¬(st.knownJsonlFiles.contains f = true) := by
    rw [hknown]
    exact Bool.false_ne_true
  refine ⟨fun st' h => ?_, fun hne => ?_, fun heq => ?_⟩
  · unfold scanStep
    rw [if_pos h]
  · unfold scanStep
    rw [if_neg hknown']
    simp [hactive, hlook, hne]
  · unfold scanStep
    rw [if_neg hknown']
    simp only [hactive, hlook]
    rw [if_neg (by simp [heq])]
    unfold reassignAgentToFile
    simp only [hlook]
    refine ⟨?_, ?_, ?_⟩
    · simp [startFileWatching, lookup_updateAgent, hlook]
    · simp [startFileWatching, lookup_updateAgent, hlook]
    · simp [startFileWatching]

/-- Concrete data for the C3 counterexample: a codex-path transcript file
discovered while a claude agent is active, then rediscovered later when a
codex agent is active. -/
def c3CodexFile : String := "/home/u/.codex/sessions/2025/10/01/rollout-1.jsonl"

def c3ClaudeAgent : AgentState :=
  initialAgentState Provider.claude "/home/u/.claude/projects/x"
    "/home/u/.claude/projects/x/a.jsonl"

def c3CodexAgent : AgentState :=
  initialAgentState Provider.codex "/home/u/.codex/sessions"
    "/home/u/.codex/sessions/2025/09/30/old.jsonl"

def c3St0 : TrackSt := ⟨[(1, c3ClaudeAgent)], some 1, [1], [1], []⟩

/-- The tracking state of a later scan cycle: the codex file became known
in the first cycle, and now a codex agent (id 2) is the active one. -/
def c3St1 : TrackSt :=
  { (scanForNewJsonlFiles [c3CodexFile] c3St0).1 with
    agents := [(1, c3ClaudeAgent), (2, c3CodexAgent)], activeAgentId := some 2,
    fileWatchers := [1, 2], pollingTimers := [1, 2] }

def c3St2 : TrackSt := { c3St1 with knownJsonlFiles := [] }

/-- **C3** counterexample to "skipped only for that scan cycle, and
remains eligible ... in a later scan cycle": the first cycle (claude agent
active) skips the codex file but adds it to the known-files set; a later
cycle in which the active agent's provider *does* match leaves the state
entirely unchanged — the file is never attributed.  Had the file still
been eligible (last conjunct: the same later cycle with the file not in
the known set), it would have been attributed to agent 2. -/
theorem c3_counterexample :
    (scanForNewJsonlFiles [c3CodexFile] c3St0).1.agents = c3St0.agents ∧
    (scanForNewJsonlFiles [c3CodexFile] c3St0).1.knownJsonlFiles = [c3CodexFile] ∧
    (scanForNewJsonlFiles [c3CodexFile] c3St1).1 = c3St1 ∧
    ((scanForNewJsonlFiles [c3CodexFile] c3St2).1.agents.lookup 2).map
        AgentState.jsonlFile = some c3CodexFile := by
  decide

theorem c3_witness :
    (c3St0.knownJsonlFiles.contains c3CodexFile = false ∧
      c3St0.activeAgentId = some 1 ∧ c3St0.agents.lookup 1 = some c3ClaudeAgent ∧
      c3ClaudeAgent.provider ≠ detectProviderFromJsonlFile c3CodexFile) ∧
    scanStep c3St0 c3CodexFile
      = ({ c3St0 with knownJsonlFiles := c3St0.knownJsonlFiles ++ [c3CodexFile] }, []) :=
  ⟨⟨by decide, rfl, rfl, by decide⟩,
    (c3_scan_attribution c3St0 c3CodexFile 1 c3ClaudeAgent (by decide) rfl rfl).2.1
      (by decide)⟩

/-! ## C4: resync with no candidate file -/

/-- **C4** (amended).  If `resyncAgent` runs for an existing agent whose
transcript file is missing and no candidate file is found, it reports a
non-fatal `resync-result` with `ok = false` and leaves the agent record's
fields (transcriptPath, readOffset, partialLineBuffer, provider, tool
state, flags) unmutated — but the tracking resources are *not* untouched:
the file watcher and the polling interval were already torn down and both
timers cancelled before the existence check, and they are not reinstated
on the failure path. -/
theorem c4_resync_no_candidate (st : TrackSt) (id : Nat) (agent : AgentState)
    (hlook : st.agents.lookup id = some agent) :
    (resyncAgent id [] false st).2
      = [TrackMsg.agentResynced id false
          (some "No transcript files found for this agent/provider.")] ∧
    (resyncAgent id [] false st).1.agents.lookup id
      = some { agent with waitingTimer := false, permissionTimer := false } ∧
    (resyncAgent id [] false st).1.fileWatchers
      = st.fileWatchers.filter (fun i => i != id) ∧
    (resyncAgent id [] false st).1.pollingTimers
      = st.pollingTimers.filter (fun i => i != id) ∧
    (resyncAgent id [] false st).1.knownJsonlFiles = st.knownJsonlFiles ∧
    (resyncAgent id [] false st).1.activeAgentId = st.activeAgentId := by
  unfold resyncAgent
  rw [hlook]
  simp only [getNewestJsonlFile, List.foldl_nil, Bool.false_eq_true, if_false]
  refine ⟨?_, ?_, ?_, ?_, ?_, ?_⟩ <;>
    simp [lookup_updateAgent, hlook, cancelWaitingTimer, cancelPermissionTimer]

def c4Agent : AgentState :=
  { initialAgentState Provider.claude "/proj" "/proj/gone.jsonl" with waitingTimer := true }

def c4State : TrackSt := ⟨[(1, c4Agent)], some 1, [1], [1], ["/proj/gone.jsonl"]⟩

/-- **C4** counterexample to "tracking resources untouched": at a concrete
state with a watcher, a poller and an armed waiting timer for agent 1, the
failing resync reports `ok = false` but removes the watcher and poller and
cancels the timer — the resulting tracking state differs from the
original. -/
theorem c4_counterexample :
    (resyncAgent 1 [] false c4State).2
      = [TrackMsg.agentResynced 1 false
          (some "No transcript files found for this agent/provider.")] ∧
    (resyncAgent 1 [] false c4State).1.fileWatchers = [] ∧
    c4State.fileWatchers = [1] ∧
    (resyncAgent 1 [] false c4State).1 ≠ c4State := by
  decide

theorem c4_witness :
    c4State.agents.lookup 1 = some c4Agent ∧
    ((resyncAgent 1 [] false c4State).2
        = [TrackMsg.agentResynced 1 false
            (some "No transcript files found for this agent/provider.")] ∧
      (resyncAgent 1 [] false c4State).1.agents.lookup 1
        = some { c4Agent with waitingTimer := false, permissionTimer := false } ∧
      (resyncAgent 1 [] false c4State).1.fileWatchers
        = c4State.fileWatchers.filter (fun i => i != 1) ∧
      (resyncAgent 1 [] false c4State).1.pollingTimers
        = c4State.pollingTimers.filter (fun i => i != 1) ∧
      (resyncAgent 1 [] false c4State).1.knownJsonlFiles = c4State.knownJsonlFiles ∧
      (resyncAgent 1 [] false c4State).1.activeAgentId = c4State.activeAgentId) :=
  ⟨rfl, c4_resync_no_candidate c4State 1 c4Agent rfl⟩

/-! ## C7: read-offset invariants -/

/-- **C7**.  `readOffset` is never set beyond the current size of the file
it points at: along every tailing trace the offset stays at most the file
length; a single read either leaves the offset unchanged or writes exactly
the statted file size, and never decreases it; and reassignment resets the
offset to 0. -/
theorem c7_read_offset_invariants :
    (∀ tr : List TailEvent, (runTail tr).st.fileOffset ≤ (runTail tr).file.length) ∧
    (∀ (f : List Char) (s : TailState),
      s.fileOffset ≤ (readNewLinesTail f s).1.fileOffset ∧
      ((readNewLinesTail f s).1.fileOffset = s.fileOffset ∨
        (readNewLinesTail f s).1.fileOffset = f.length)) ∧
    (∀ (st : TrackSt) (aid : Nat) (f : String),
      ((reassignAgentToFile aid f st).1.agents.lookup aid).map AgentState.fileOffset
        = (st.agents.lookup aid).map (fun _ => 0)) := by
  refine ⟨fun tr => (tailInv_runTail tr).1, fun f s => ?_, fun st aid f => ?_⟩
  · by_cases hr : f.length ≤ s.fileOffset
    · simp [readNewLinesTail, hr]
    · refine ⟨?_, ?_⟩
      · simp only [readNewLinesTail]
        rw [if_neg hr]
        exact le_of_lt (Nat.lt_of_not_le hr)
      · simp only [readNewLinesTail]
        rw [if_neg hr]
        exact Or.inr rfl
  · unfold reassignAgentToFile
    cases hl : st.agents.lookup aid with
    | none => simp [hl]
    | some ag => simp [hl, startFileWatching, lookup_updateAgent]

/-! ## C8: round-robin prompt routing -/

def sortNatInsert (x : Nat) : List Nat → List Nat
  | [] => [x]
  | y :: ys => if x ≤ y then x :: y :: ys else y :: sortNatInsert x ys

/-- `[...agents.keys()].sort((a, b) => a - b)`. -/
def sortNats (l : List Nat) : List Nat := l.foldr sortNatInsert []

/-- The `round_robin` branch of the `sendPrompt` handler: pick
`sortedIds[cursor % n]`, advance the cursor to `(idx + 1) % n`, and if the
chosen agent exists make it active and write `prompt + "\r"` to its
process.  Result: (new cursor, new active agent, delivery).  An empty
registry or a vanished chosen agent falls through to the `active` routing
(no delivery here); note the cursor has already advanced in the latter
case. -/
def roundRobinSend (agents : List (Nat × AgentState)) (cursor : Nat)
    (active : Option Nat) (prompt : String) :
    Nat × Option Nat × Option (Nat × String) :=
  let sortedIds := sortNats (agents.map Prod.fst)
  if sortedIds.length = 0 then (cursor, active, none)
  else
    let idx := cursor % sortedIds.length
    let chosenId := sortedIds.getD idx 0
    let cursor' := (idx + 1) % sortedIds.length
    match agents.lookup chosenId with
    | some _ => (cursor', some chosenId, some (chosenId, prompt ++ "\r"))
    | none => (cursor', active, none)

/-- **C8**.  With agents 3, 5, 9 registered and the rotation cursor at 0,
two consecutive round-robin sends deliver the prompt to agent 3 and then
agent 5, leave the cursor at index 2, and after each delivery the chosen
agent is the new active agent. -/
theorem c8_round_robin_rotation (a b c : AgentState) (prompt : String) :
    (roundRobinSend [(3, a), (5, b), (9, c)] 0 none prompt).2.2
      = some (3, prompt ++ "\r") ∧
    (roundRobinSend [(3, a), (5, b), (9, c)] 0 none prompt).2.1 = some 3 ∧
    (roundRobinSend [(3, a), (5, b), (9, c)] 0 none prompt).1 = 1 ∧
    (roundRobinSend [(3, a), (5, b), (9, c)] 1 (some 3) prompt).2.2
      = some (5, prompt ++ "\r") ∧
    (roundRobinSend [(3, a), (5, b), (9, c)] 1 (some 3) prompt).2.1 = some 5 ∧
    (roundRobinSend [(3, a), (5, b), (9, c)] 1 (some 3) prompt).1 = 2 := by
  refine ⟨?_, ?_, ?_, ?_, ?_, ?_⟩ <;>
    simp [roundRobinSend, sortNats, sortNatInsert, List.lookup]

end PixelAgents
